import Mathlib

/-!
Verification development for the hindsight-memory plugin
(src/extensions/hindsight-memory/index.ts).

The TypeScript source is shallowly embedded below. JS strings are modelled
as Lean `String` (one `Char` per JS code unit; all inputs considered are in
the basic plane, where the two notions of length agree). JS `undefined` for
an optional value is `Option.none`. A `fetch` response is modelled by its
HTTP status, raw body text, and (when the status is a success) the parsed
JSON payload. A thrown JS `Error e` observed through `String(err)` is the
string `"Error: " ++ e.message`. Asynchronous calls are modelled by passing
the outcome of each network call (an `Except` value) to the function that
performs it; the functions return ordinary values, so the embedding makes
visible that no handler has an exceptional outcome.
-/

namespace Hindsight

/-- JS truthiness of a string: every string except `""` is truthy. -/
def jsTruthy (s : String) : Bool := !(s == "")

/-- Whitespace recognized by `String.prototype.trim`, restricted to the
ASCII whitespace characters that can occur in the texts considered here. -/
def jsWhitespace (c : Char) : Bool := c == ' ' || c == '\t' || c == '\n' || c == '\r'

/-- Model of JS `s.trim()`: drop leading and trailing whitespace. -/
def jsTrim (s : String) : String :=
  ⟨((s.data.dropWhile jsWhitespace).reverse.dropWhile jsWhitespace).reverse⟩

/-- Model of JS `s.slice(0, n)`: the first `n` characters of `s`. -/
def jsSlice (s : String) (n : Nat) : String := ⟨s.data.take n⟩

/-- JS `String(err)` for an `Error` whose `message` is `msg`. -/
def jsErrorString (msg : String) : String := "Error: " ++ msg

/-- The fetch API's `response.ok`: true exactly for 2xx statuses. -/
def httpOk (status : Nat) : Bool := decide (200 ≤ status) && decide (status ≤ 299)

/-- One element of the `items` batch sent by `HindsightClient.retain`
(index.ts lines 70-77). -/
structure MemoryItem where
  content : String
  context : Option String
  tags : Option (List String)
  timestamp : String
deriving DecidableEq

/-- The JSON body of a request issued by the client: either the retain
creation body `\x7bitems: [...]\x7d` or the recall search body
`\x7bquery, max_tokens, budget, tags?\x7d`. -/
inductive RequestBody
  | retainItems (items : List MemoryItem)
  | recallQuery (query : String) (max_tokens : Nat) (budget : String)
      (tags : Option (List String))
deriving DecidableEq

/-- An HTTP request as issued by `HindsightClient.request`. -/
structure HttpRequest where
  method : String
  url : String
  headers : List (String × String)
  body : RequestBody
deriving DecidableEq

/-- The client's constructor state (index.ts lines 32-37): base URL, bank
id, and optional API key. -/
structure HindsightClient where
  baseUrl : String
  bankId : String
  apiKey : Option String

/-- Headers built by `HindsightClient.request` (index.ts lines 44-49):
always `Content-Type`, and `Authorization: Bearer` exactly when
`this.apiKey` is truthy (present and nonempty). -/
def requestHeaders (apiKey : Option String) : List (String × String) :=
  [("Content-Type", "application/json")] ++
    (match apiKey with
      | some k => if jsTruthy k then [("Authorization", "Bearer " ++ k)] else []
      | none => [])

/-- The request issued by `HindsightClient.retain` (index.ts lines 65-79):
one POST carrying a single-element `items` batch whose timestamp `nowIso`
is set by the caller (`new Date().toISOString()`). -/
def HindsightClient.retainRequest (c : HindsightClient) (content : String)
    (context : Option String) (tags : Option (List String)) (nowIso : String) :
    HttpRequest :=
  { method := "POST"
    url := c.baseUrl ++ "/v1/default/banks/" ++ c.bankId ++ "/memories"
    headers := requestHeaders c.apiKey
    body := .retainItems [⟨content, context, tags, nowIso⟩] }

/-- The request issued by `HindsightClient.recall` (index.ts lines 81-98):
one POST to the recall endpoint whose body carries `budget: "mid"` and
`max_tokens: options?.maxTokens ?? 2000`. -/
def HindsightClient.recallRequest (c : HindsightClient) (query : String)
    (maxTokens : Option Nat) (tags : Option (List String)) : HttpRequest :=
  { method := "POST"
    url := c.baseUrl ++ "/v1/default/banks/" ++ c.bankId ++ "/memories/recall"
    headers := requestHeaders c.apiKey
    body := .recallQuery query (maxTokens.getD 2000) "mid" tags }

/-- Message of the `Error` thrown by `HindsightClient.request` on a
non-success status (index.ts line 59). -/
def apiErrorMessage (status : Nat) (bodyText : String) : String :=
  "Hindsight API error (" ++ toString status ++ "): " ++ bodyText

/-- Outcome of `HindsightClient.request` (index.ts lines 57-62) for a
response with the given status, raw body text and parsed payload: the
payload when `response.ok`, otherwise the thrown error's message. -/
def handleResponse {α : Type} (status : Nat) (bodyText : String) (payload : α) :
    Except String α :=
  if httpOk status then .ok payload else .error (apiErrorMessage status bodyText)

/-- The response type declared for `HindsightClient.retain` is
`\x7bsuccess: boolean; items_count: number\x7d`; the JSON cast in `request`
is unchecked, so the runtime object is additionally modelled with the
`memory_ids` field read (untyped) by the retain tool at index.ts line 238 —
under the documented wire contract that field is absent (`none`). -/
structure RetainResponse where
  success : Bool
  items_count : Nat
  memory_ids : Option (List String)
deriving DecidableEq

/-- One recall result as declared in `HindsightClient.recall`
(index.ts lines 84-90). Scores are modelled as rationals. -/
structure RecallResult where
  memory_id : String
  content : String
  score : ℚ
  timestamp : Option String
deriving DecidableEq

/-- The recall response body: an ordered list of results. -/
structure RecallResponse where
  results : List RecallResult
deriving DecidableEq

/-- JS `x.toFixed(0)` as an integer, for the nonnegative values used here:
the integer nearest to `x`, ties rounded up (ECMA picks the larger
candidate). Computed via `Rat.floor (x + 1/2)`. -/
def jsToFixed0 (q : ℚ) : ℤ := Rat.floor (q + 1/2)

/-- One line of the recall tool's rendering (index.ts lines 158-163):
`"i+1. content (relevance: p%)"` with `p = (score * 100).toFixed(0)`. -/
def renderRecallEntry (i : Nat) (r : RecallResult) : String :=
  toString (i + 1) ++ ". " ++ r.content ++ " (relevance: " ++
    toString (jsToFixed0 (r.score * 100)) ++ "%)"

/-- One entry of the recall tool's structured `memories` detail
(index.ts lines 174-178). -/
structure MemorySummary where
  id : String
  content : String
  score : ℚ
deriving DecidableEq

/-- The structured `details` object returned by the recall tool: `noResults`
models `\x7bcount: 0\x7d`, `found` models `\x7bcount, memories\x7d`, and
`failed` models `\x7berror\x7d`. -/
inductive RecallDetails
  | noResults
  | found (count : Nat) (memories : List MemorySummary)
  | failed (error : String)
deriving DecidableEq

/-- The `count` field of the recall tool's detail object, when present. -/
def RecallDetails.countField : RecallDetails → Option Nat
  | .noResults => some 0
  | .found n _ => some n
  | .failed _ => none

/-- A tool handler's return value: user-visible text plus a structured
detail object. Handlers return this in every case; there is no exceptional
alternative. -/
structure ToolResult (δ : Type) where
  text : String
  details : δ
deriving DecidableEq

/-- The rendered lines of the recall tool's `.map((r, i) => ...)`, the
entry at position `j` of the input list rendered with index `i + j`. -/
def renderEntriesFrom (i : Nat) : List RecallResult → List String
  | [] => []
  | r :: rest => renderRecallEntry i r :: renderEntriesFrom (i + 1) rest

/-- The `hindsight_recall` tool handler (index.ts lines 140-193), applied
to the outcome of its one client call. -/
def recallExecute (outcome : Except String RecallResponse) :
    ToolResult RecallDetails :=
  match outcome with
  | .error msg =>
      { text := "Memory recall failed: " ++ jsErrorString msg
        details := .failed (jsErrorString msg) }
  | .ok resp =>
      if resp.results.isEmpty then
        { text := "No relevant memories found.", details := .noResults }
      else
        { text := "Found " ++ toString resp.results.length ++ " memories:\n\n" ++
            String.intercalate "\n\n" (renderEntriesFrom 0 resp.results)
          details := .found resp.results.length
            (resp.results.map (fun r => ⟨r.memory_id, r.content, r.score⟩)) }

/-- The structured `details` object returned by the retain tool:
`created` models `\x7baction: "created", memoryIds\x7d` and `failed`
models `\x7berror\x7d`. -/
inductive RetainDetails
  | created (memoryIds : Option (List String))
  | failed (error : String)
deriving DecidableEq

/-- The echoed display text of the retain tool (index.ts line 233):
`content.slice(0, 100)` plus `"..."` when the content is longer than 100. -/
def truncEcho (content : String) : String :=
  jsSlice content 100 ++ (if 100 < content.length then "..." else "")

/-- The `hindsight_retain` tool handler (index.ts lines 219-253), applied
to its input content and the outcome of its one client call. -/
def retainExecute (content : String) (outcome : Except String RetainResponse) :
    ToolResult RetainDetails :=
  match outcome with
  | .error msg =>
      { text := "Failed to store memory: " ++ jsErrorString msg
        details := .failed (jsErrorString msg) }
  | .ok resp =>
      { text := "Stored in memory: \"" ++ truncEcho content ++ "\""
        details := .created resp.memory_ids }

/-- A content block of a conversation message, as inspected by the
auto-retain extraction (index.ts lines 315-328): its `type` field (if any)
and its `text` field (if present and a string). A non-object block is
`⟨none, none⟩`. -/
structure Block where
  type : Option String
  text : Option String
deriving DecidableEq

/-- The `content` field of a message: a plain string, a block sequence, or
some other JS value (skipped by the extraction). -/
inductive MsgContent
  | str (s : String)
  | blocks (bs : List Block)
  | other
deriving DecidableEq

/-- A conversation message: a non-object value (`invalid`, skipped at
index.ts line 304) or an object with its `role` field and content. -/
inductive Message
  | invalid
  | node (role : Option String) (content : MsgContent)
deriving DecidableEq

/-- Candidate texts taken from one block (index.ts lines 316-327): a block
whose `type` field is `"text"` and whose `text` field is a string of
trimmed length greater than 10 contributes the trimmed text. -/
def blockCandidate (b : Block) : List String :=
  match b.type, b.text with
  | some ty, some t =>
      if ty = "text" then
        if 10 < (jsTrim t).length then [jsTrim t] else []
      else []
  | _, _ => []

/-- Candidate texts taken from a block sequence, in block order
(the inner `for` loop at index.ts lines 315-328). -/
def blockTexts (bs : List Block) : List String := bs.flatMap blockCandidate

/-- Candidate texts taken from the `content` field of a user message
(index.ts lines 311-329): a string content contributes its trimmed text
when the trimmed length exceeds 10; a block sequence contributes
`blockTexts`; any other value contributes nothing. -/
def contentCandidates : MsgContent → List String
  | .str s => if 10 < (jsTrim s).length then [jsTrim s] else []
  | .blocks bs => blockTexts bs
  | .other => []

/-- Candidate texts taken from one message (index.ts lines 303-330): only
object messages with role `"user"` contribute. -/
def candidateOfMessage : Message → List String
  | .invalid => []
  | .node role c => if role = some "user" then contentCandidates c else []

/-- The `toRetain` list built by the `agent_end` handler: candidates of all
messages, in original message order. -/
def extractCandidates (msgs : List Message) : List String :=
  msgs.flatMap candidateOfMessage

/-- The `before_agent_start` event: an optional prompt. -/
structure BeforeAgentStartEvent where
  prompt : Option String

/-- The auto-recall guard (index.ts line 265):
`!event.prompt || event.prompt.length < 10`. -/
def promptBlocked : Option String → Bool
  | none => true
  | some p => !jsTruthy p || decide (p.length < 10)

/-- Observable behaviour of one `before_agent_start` invocation: the recall
call issued (query and maxTokens), if any; the `prependContext` returned,
if any; and the warnings logged. -/
structure AutoRecallTrace where
  issued : Option (String × Nat)
  prependContext : Option String
  warnings : List String
deriving DecidableEq

/-- The context block injected by auto-recall (index.ts lines 274-284):
the first 5 results as `- content` bullets inside the delimiting block. -/
def memoriesBlock (results : List RecallResult) : String :=
  "<relevant-memories>\nThe following memories may be relevant:\n" ++
    String.intercalate "\n" ((results.take 5).map (fun r => "- " ++ r.content)) ++
    "\n</relevant-memories>"

/-- The `before_agent_start` handler (index.ts lines 264-289), applied to
the outcome its recall call would have (unused when the guard blocks). -/
def autoRecallHook (ev : BeforeAgentStartEvent)
    (outcome : Except String RecallResponse) : AutoRecallTrace :=
  if promptBlocked ev.prompt then ⟨none, none, []⟩
  else
    match outcome with
    | .error msg =>
        ⟨some (ev.prompt.getD "", 1500), none,
          ["hindsight-memory: auto-recall failed: " ++ jsErrorString msg]⟩
    | .ok resp =>
        if resp.results.isEmpty then ⟨some (ev.prompt.getD "", 1500), none, []⟩
        else ⟨some (ev.prompt.getD "", 1500), some (memoriesBlock resp.results), []⟩

/-- The `agent_end` event: success flag and optional message list. -/
structure AgentEndEvent where
  success : Bool
  messages : Option (List Message)

/-- The auto-retain guard (index.ts line 295):
`!event.success || !event.messages || event.messages.length === 0`. -/
def agentEndBlocked (ev : AgentEndEvent) : Bool :=
  !ev.success ||
    (match ev.messages with
      | none => true
      | some ms => ms.isEmpty)

/-- One retain call as issued by a caller of `HindsightClient.retain`. -/
structure RetainCall where
  content : String
  context : Option String
  tags : Option (List String)
deriving DecidableEq

/-- The retain call issued for one auto-captured candidate
(index.ts lines 335-338). -/
def mkAutoCall (content : String) : RetainCall :=
  ⟨content, some "auto-captured from conversation", some ["conversation", "auto"]⟩

/-- The retain loop of the `agent_end` handler (index.ts lines 333-340):
issues one call per candidate in order; a failing call throws, so the loop
stops after it. `outcomes i` is the outcome of the `i`-th call. Returns the
contents of the calls issued and the message of the error thrown, if any. -/
def runRetainLoop (outcomes : Nat → Except String RetainResponse) :
    List String → Nat → List String × Option String
  | [], _ => ([], none)
  | c :: cs, i =>
    match outcomes i with
    | .ok _ =>
        let rest := runRetainLoop outcomes cs (i + 1)
        (c :: rest.1, rest.2)
    | .error msg => ([c], some msg)

/-- Observable behaviour of one `agent_end` invocation: the retain calls
issued (in order) and the warnings logged. The handler returns no value in
any case. -/
structure AutoRetainTrace where
  calls : List RetainCall
  warnings : List String
deriving DecidableEq

/-- The `agent_end` handler (index.ts lines 294-352): guard, candidate
extraction, then at most the first 5 candidates submitted via retain; any
thrown error is caught and logged as a warning. -/
def autoRetainHook (ev : AgentEndEvent)
    (outcomes : Nat → Except String RetainResponse) : AutoRetainTrace :=
  if agentEndBlocked ev then ⟨[], []⟩
  else
    let r := runRetainLoop outcomes ((extractCandidates (ev.messages.getD [])).take 5) 0
    ⟨r.1.map mkAutoCall,
      match r.2 with
      | some msg => ["hindsight-memory: auto-retain failed: " ++ jsErrorString msg]
      | none => []⟩

/-! Shared helper lemmas. -/

lemma jsToFixed0_eq_floor (q : ℚ) : jsToFixed0 q = ⌊q + 1/2⌋ := by
  show Rat.floor (q + 1/2) = ⌊q + 1/2⌋
  rw [Rat.floor_def', ← Rat.floor_def]

lemma jsToFixed0_eq_round (q : ℚ) : jsToFixed0 q = round q := by
  rw [round_eq, jsToFixed0_eq_floor]

lemma jsSlice_of_le {s : String} {n : Nat} (h : s.length ≤ n) : jsSlice s n = s := by
  cases s with
  | mk d =>
    show String.mk (d.take n) = String.mk d
    rw [List.take_of_length_le h]

lemma string_append_empty (s : String) : s ++ "" = s := by
  cases s with
  | mk d =>
    show String.mk (d ++ []) = String.mk d
    rw [List.append_nil]

lemma runRetainLoop_of_ok (outcomes : Nat → Except String RetainResponse)
    (hok : ∀ i, (outcomes i).isOk = true) :
    ∀ (l : List String) (i : Nat), runRetainLoop outcomes l i = (l, none) := by
  intro l
  induction l with
  | nil => intro i; rfl
  | cons c cs ih =>
    intro i
    have h := hok i
    cases hoi : outcomes i with
    | ok r => rw [runRetainLoop, hoi]; simp [ih (i + 1)]
    | error msg => rw [hoi] at h; simp [Except.isOk, Except.toBool] at h

lemma mem_blockCandidate_length {s : String} {b : Block}
    (h : s ∈ blockCandidate b) : 10 < s.length := by
  rcases b with ⟨_ | ty, _ | t⟩
  · simp [blockCandidate] at h
  · simp [blockCandidate] at h
  · simp [blockCandidate] at h
  · rw [show blockCandidate ⟨some ty, some t⟩
        = (if ty = "text" then
            (if 10 < (jsTrim t).length then [jsTrim t] else []) else []) from rfl] at h
    by_cases hty : ty = "text"
    · rw [if_pos hty] at h
      by_cases ht : 10 < (jsTrim t).length
      · rw [if_pos ht] at h
        rcases List.mem_singleton.mp h with rfl
        exact ht
      · rw [if_neg ht] at h; simp at h
    · rw [if_neg hty] at h; simp at h

lemma mem_blockTexts_length {s : String} {bs : List Block}
    (h : s ∈ blockTexts bs) : 10 < s.length := by
  rw [blockTexts, List.mem_flatMap] at h
  rcases h with ⟨b, _, hb⟩
  exact mem_blockCandidate_length hb

lemma mem_candidateOfMessage_length {s : String} {m : Message}
    (h : s ∈ candidateOfMessage m) : 10 < s.length := by
  cases m with
  | invalid => simp [candidateOfMessage] at h
  | node role c =>
    rw [candidateOfMessage] at h
    by_cases hrole : role = some "user"
    · rw [if_pos hrole] at h
      cases c with
      | str t =>
        rw [contentCandidates] at h
        by_cases ht : 10 < (jsTrim t).length
        · rw [if_pos ht] at h
          rcases List.mem_singleton.mp h with rfl
          exact ht
        · rw [if_neg ht] at h; simp at h
      | blocks bs => exact mem_blockTexts_length h
      | other => simp [contentCandidates] at h
    · rw [if_neg hrole] at h; simp at h

lemma mem_extractCandidates_length {s : String} {msgs : List Message}
    (h : s ∈ extractCandidates msgs) : 10 < s.length := by
  rw [extractCandidates, List.mem_flatMap] at h
  rcases h with ⟨m, _, hm⟩
  exact mem_candidateOfMessage_length hm

lemma string_length_pos_ne_empty {p : String} (hp : 10 ≤ p.length) : p ≠ "" := by
  intro h
  subst h
  exact absurd hp (by decide)

lemma promptBlocked_of_long {p : String} (hp : 10 ≤ p.length) :
    promptBlocked (some p) = false := by
  have hne : p ≠ "" := string_length_pos_ne_empty hp
  rw [promptBlocked, jsTruthy]
  simp [hne, Nat.not_lt.mpr hp]

/-- C6: for every retain tool invocation with content of length at most 100
the echoed confirmation contains the content unmodified; for longer content
it contains exactly the first 100 characters followed by the ellipsis
marker; in both cases the payload sent to the store carries the full
original content unmodified. -/
theorem retain_echo_truncation (c : HindsightClient) (content nowIso : String)
    (context : Option String) (tags : Option (List String)) (resp : RetainResponse) :
    (content.length ≤ 100 →
      (retainExecute content (.ok resp)).text
        = "Stored in memory: \"" ++ content ++ "\"")
    ∧ (100 < content.length →
      (retainExecute content (.ok resp)).text
        = "Stored in memory: \"" ++ (jsSlice content 100 ++ "...") ++ "\"")
    ∧ (c.retainRequest content context tags nowIso).body
        = .retainItems [⟨content, context, tags, nowIso⟩] := by
  refine ⟨?_, ?_, rfl⟩
  · intro h
    have h1 : truncEcho content = content := by
      rw [truncEcho, if_neg (Nat.not_lt.mpr h), string_append_empty, jsSlice_of_le h]
    show "Stored in memory: \"" ++ truncEcho content ++ "\"" = _
    rw [h1]
  · intro h
    have h1 : truncEcho content = jsSlice content 100 ++ "..." := by
      rw [truncEcho, if_pos h]
    show "Stored in memory: \"" ++ truncEcho content ++ "\"" = _
    rw [h1]

/-- Witness for C6 at a short and a long concrete content. -/
theorem retain_echo_truncation_witness :
    (retainExecute "User prefers dark mode" (.ok ⟨true, 1, none⟩)).text
      = "Stored in memory: \"User prefers dark mode\""
    ∧ (retainExecute (String.mk (List.replicate 101 'a')) (.ok ⟨true, 1, none⟩)).text
      = "Stored in memory: \"" ++ (String.mk (List.replicate 100 'a') ++ "...") ++ "\"" := by
  constructor
  · have h := (retain_echo_truncation ⟨"u", "b", none⟩ "User prefers dark mode" "t"
      none none ⟨true, 1, none⟩).1 (by decide)
    rw [h]
    decide
  · have h := (retain_echo_truncation ⟨"u", "b", none⟩ (String.mk (List.replicate 101 'a'))
      "t" none none ⟨true, 1, none⟩).2.1 (by decide)
    rw [h]
    decide

/-- C7 is refuted as stated: with the credential configured as the empty
string, requests carry no Authorization header even though a credential is
configured. -/
theorem client_auth_counterexample :
    (some "" : Option String) ≠ none
    ∧ (requestHeaders (some "")).lookup "Authorization" = none
    ∧ (((HindsightClient.mk "http://localhost:8001" "aletheia" (some "")).retainRequest
        "User prefers dark mode" none none
        "2026-01-01T00:00:00.000Z").headers).lookup "Authorization" = none := by
  exact ⟨by decide, by decide, by decide⟩

/-- C7 (amended): every client retain call issues one POST to
`baseUrl/v1/default/banks/bankId/memories` carrying a single-element items
batch with the caller-set timestamp; every recall call issues one POST to
`.../memories/recall` with budget `"mid"` and `max_tokens` the caller's
value, 2000 when unspecified; a request carries an `Authorization: Bearer`
header if and only if a nonempty credential is configured. -/
theorem client_request_shapes (c : HindsightClient) (content query nowIso : String)
    (context : Option String) (tags tags2 : Option (List String))
    (maxTokens : Option Nat) :
    (c.retainRequest content context tags nowIso).method = "POST"
    ∧ (c.retainRequest content context tags nowIso).url
        = c.baseUrl ++ "/v1/default/banks/" ++ c.bankId ++ "/memories"
    ∧ (c.retainRequest content context tags nowIso).body
        = .retainItems [⟨content, context, tags, nowIso⟩]
    ∧ (c.recallRequest query maxTokens tags2).method = "POST"
    ∧ (c.recallRequest query maxTokens tags2).url
        = c.baseUrl ++ "/v1/default/banks/" ++ c.bankId ++ "/memories/recall"
    ∧ (c.recallRequest query maxTokens tags2).body
        = .recallQuery query (maxTokens.getD 2000) "mid" tags2
    ∧ (c.recallRequest query none tags2).body = .recallQuery query 2000 "mid" tags2
    ∧ (c.recallRequest query maxTokens tags2).headers
        = (c.retainRequest content context tags nowIso).headers
    ∧ ((∃ v, ("Authorization", v) ∈ (c.retainRequest content context tags nowIso).headers)
        ↔ ∃ k, c.apiKey = some k ∧ k ≠ "") := by
  refine ⟨rfl, rfl, rfl, rfl, rfl, rfl, rfl, rfl, ?_⟩
  show (∃ v, ("Authorization", v) ∈ requestHeaders c.apiKey) ↔ _
  cases hk : c.apiKey with
  | none => simp [requestHeaders]
  | some k =>
    by_cases hke : k = ""
    · subst hke
      simp [requestHeaders, jsTruthy]
    · simp only [requestHeaders, jsTruthy]
      simp [hke]

/-- C8: when the configured apiKey is the empty string, no Authorization
header is sent on any request, because the header is added only when the
credential is truthy. -/
theorem empty_api_key_no_auth :
    requestHeaders (some "") = [("Content-Type", "application/json")]
    ∧ (∀ baseUrl bankId content nowIso context tags,
        ((HindsightClient.mk baseUrl bankId (some "")).retainRequest content
            context tags nowIso).headers
          = [("Content-Type", "application/json")])
    ∧ (∀ baseUrl bankId query maxTokens tags,
        ((HindsightClient.mk baseUrl bankId (some "")).recallRequest query
            maxTokens tags).headers
          = [("Content-Type", "application/json")])
    ∧ (∀ k : String,
        (∃ v, ("Authorization", v) ∈ requestHeaders (some k)) ↔ jsTruthy k = true) := by
  refine ⟨rfl, fun _ _ _ _ _ _ => rfl, fun _ _ _ _ _ => rfl, ?_⟩
  intro k
  by_cases hke : k = ""
  · subst hke
    simp [requestHeaders, jsTruthy]
  · simp only [requestHeaders, jsTruthy]
    simp [hke]

/-- C9: every candidate submitted by the auto-retain pipeline stores the
trimmed candidate text, not the raw message text, while the explicit retain
tool's payload carries its content unmodified. -/
theorem auto_retain_stores_trimmed (s t content nowIso : String) (c : HindsightClient)
    (context : Option String) (tags : Option (List String))
    (hs : 10 < (jsTrim s).length) (ht : 10 < (jsTrim t).length) :
    candidateOfMessage (.node (some "user") (.str s)) = [jsTrim s]
    ∧ blockTexts [⟨some "text", some t⟩] = [jsTrim t]
    ∧ (jsTrim s ≠ s → candidateOfMessage (.node (some "user") (.str s)) ≠ [s])
    ∧ (c.retainRequest content context tags nowIso).body
        = .retainItems [⟨content, context, tags, nowIso⟩] := by
  have h1 : candidateOfMessage (.node (some "user") (.str s)) = [jsTrim s] := by
    rw [candidateOfMessage, if_pos rfl, contentCandidates, if_pos hs]
  refine ⟨h1, ?_, ?_, rfl⟩
  · show blockCandidate ⟨some "text", some t⟩ ++ [] = [jsTrim t]
    rw [List.append_nil]
    show (if "text" = "text" then
        (if 10 < (jsTrim t).length then [jsTrim t] else []) else []) = [jsTrim t]
    rw [if_pos rfl, if_pos ht]
  · intro hne h2
    rw [h1] at h2
    simp only [List.cons.injEq, and_true] at h2
    exact hne h2

/-- Witness for C9 at a concrete whitespace-padded user message. -/
theorem auto_retain_stores_trimmed_witness :
    candidateOfMessage (.node (some "user") (.str "  my name is Ada Lovelace  "))
      = ["my name is Ada Lovelace"]
    ∧ jsTrim "  my name is Ada Lovelace  " ≠ "  my name is Ada Lovelace  " := by
  have h := auto_retain_stores_trimmed "  my name is Ada Lovelace  "
    "  a block text candidate  " "c" "t" ⟨"u", "b", none⟩ none none
    (by decide) (by decide)
  refine ⟨?_, by decide⟩
  rw [h.1]
  decide

/-- C10: the auto-recall 10-character gate is measured on the raw untrimmed
prompt, so a prompt of 10 or more whitespace characters still issues a
recall query, whereas the retention pipeline measures the trimmed length of
its candidates. -/
theorem prompt_gate_untrimmed (p s : String) (role : Option String)
    (outcome : Except String RecallResponse)
    (hp : 10 ≤ p.length) (hs : (jsTrim s).length ≤ 10) :
    promptBlocked (some p) = false
    ∧ (autoRecallHook ⟨some p⟩ outcome).issued = some (p, 1500)
    ∧ candidateOfMessage (.node role (.str s)) = [] := by
  have hb := promptBlocked_of_long hp
  refine ⟨hb, ?_, ?_⟩
  · cases outcome with
    | error msg => simp [autoRecallHook, hb]
    | ok resp =>
      by_cases hre : resp.results.isEmpty <;> simp [autoRecallHook, hb, hre]
  · rw [candidateOfMessage]
    by_cases hrole : role = some "user"
    · rw [if_pos hrole, contentCandidates, if_neg (Nat.not_lt.mpr hs)]
    · rw [if_neg hrole]

/-- Witness for C10: a prompt of exactly 10 spaces still issues a recall
query, while the same text yields no retention candidate. -/
theorem prompt_gate_untrimmed_witness :
    (autoRecallHook ⟨some "          "⟩ (.ok ⟨[]⟩)).issued = some ("          ", 1500)
    ∧ candidateOfMessage (.node (some "user") (.str "          ")) = [] := by
  have h := prompt_gate_untrimmed "          " "          " (some "user")
    (.ok ⟨[]⟩) (by decide) (by decide)
  exact ⟨h.2.1, h.2.2⟩

/-- C5: every successful retain tool invocation returns a text confirmation
plus the structured detail with action `created` and the `memoryIds` read
off the client response, whose declared contract carries only `success` and
`items_count` (so under the documented wire contract `memoryIds` is
absent). -/
theorem retain_tool_success_result (content : String) (resp : RetainResponse) :
    retainExecute content (.ok resp)
      = { text := "Stored in memory: \"" ++ truncEcho content ++ "\""
          details := .created resp.memory_ids }
    ∧ (resp.memory_ids = none →
        (retainExecute content (.ok resp)).details = RetainDetails.created none) := by
  refine ⟨rfl, ?_⟩
  intro h
  show RetainDetails.created resp.memory_ids = _
  rw [h]

/-- Witness for C5 at a concrete successful retain invocation. -/
theorem retain_tool_success_result_witness :
    retainExecute "User prefers dark mode" (.ok ⟨true, 1, none⟩)
      = { text := "Stored in memory: \"User prefers dark mode\""
          details := .created none } := by
  have h := retain_tool_success_result "User prefers dark mode" ⟨true, 1, none⟩
  rw [h.1]
  decide

/-- C1: every client-call failure (any non-2xx status yields an error
carrying the status code and the raw body text) is converted by the tool
handlers into a degraded result whose text carries the error's textual
description (in particular the body text) plus a structured error detail,
and by the hook handlers into a logged warning with no injection; all
handlers return ordinary values, so no exception reaches the host. -/
theorem error_isolation (status : Nat) (bodyText msg p content : String)
    (payload : RecallResponse) (ms : List Message) (cand : String)
    (rest : List String) (outcomes : Nat → Except String RetainResponse)
    (hstatus : httpOk status = false)
    (hp : 10 ≤ p.length)
    (hcands : extractCandidates ms = cand :: rest)
    (hfail : outcomes 0 = .error msg) :
    handleResponse status bodyText payload
        = .error (apiErrorMessage status bodyText)
    ∧ (∃ a, "Memory recall failed: " ++ jsErrorString (apiErrorMessage status bodyText)
        = a ++ bodyText)
    ∧ recallExecute (.error msg)
        = { text := "Memory recall failed: " ++ jsErrorString msg
            details := .failed (jsErrorString msg) }
    ∧ retainExecute content (.error msg)
        = { text := "Failed to store memory: " ++ jsErrorString msg
            details := .failed (jsErrorString msg) }
    ∧ autoRecallHook ⟨some p⟩ (.error msg)
        = ⟨some (p, 1500), none,
            ["hindsight-memory: auto-recall failed: " ++ jsErrorString msg]⟩
    ∧ autoRetainHook ⟨true, some ms⟩ outcomes
        = ⟨[mkAutoCall cand],
            ["hindsight-memory: auto-retain failed: " ++ jsErrorString msg]⟩ := by
  have hms : ms.isEmpty = false := by
    cases ms with
    | nil =>
      rw [show extractCandidates [] = [] from rfl] at hcands
      exact absurd hcands (by simp)
    | cons _ _ => rfl
  refine ⟨by simp [handleResponse, hstatus], ?_, rfl, rfl, ?_, ?_⟩
  · refine ⟨"Memory recall failed: " ++
      ("Error: " ++ ("Hindsight API error (" ++ toString status ++ "): ")), ?_⟩
    simp [jsErrorString, apiErrorMessage, String.append_assoc]
  · have hb := promptBlocked_of_long hp
    simp [autoRecallHook, hb]
  · simp only [autoRetainHook, agentEndBlocked, hms, Option.getD_some, Bool.not_true,
      Bool.false_or, if_false]
    rw [hcands]
    simp [runRetainLoop, hfail, List.take_succ_cons]

/-- Witness for C1: end-to-end scenario 3 — HTTP 500 with body "db down"
produces a degraded tool result containing "db down", and the hooks log a
warning without injecting context. -/
theorem error_isolation_witness :
    httpOk 500 = false
    ∧ handleResponse 500 "db down" (⟨[]⟩ : RecallResponse)
        = .error "Hindsight API error (500): db down"
    ∧ (recallExecute (.error "Hindsight API error (500): db down")).text
        = "Memory recall failed: Error: Hindsight API error (500): db down"
    ∧ (retainExecute "User prefers dark mode"
          (.error "Hindsight API error (500): db down")).text
        = "Failed to store memory: Error: Hindsight API error (500): db down"
    ∧ autoRecallHook ⟨some "what is my dark mode preference"⟩
          (.error "Hindsight API error (500): db down")
        = ⟨some ("what is my dark mode preference", 1500), none,
            ["hindsight-memory: auto-recall failed: Error: Hindsight API error (500): db down"]⟩ := by
  have h := error_isolation 500 "db down" "Hindsight API error (500): db down"
    "what is my dark mode preference" "User prefers dark mode" ⟨[]⟩
    [Message.node (some "user") (.str "please use dark mode always")]
    "please use dark mode always" []
    (fun _ => .error "Hindsight API error (500): db down")
    (by decide) (by decide) (by decide) rfl
  refine ⟨by decide, ?_, ?_, ?_, ?_⟩
  · rw [h.1]
    exact congrArg Except.error (by decide)
  · rw [h.2.2.1]
    decide
  · rw [h.2.2.2.1]
    decide
  · rw [h.2.2.2.2.1]
    decide

/-- C2: a turn-ended event with `success = false` or an empty (or absent)
message list issues zero retain calls; otherwise only user messages
contribute candidates, every candidate has trimmed length over 10, and at
most the first 5 candidates are submitted, in order, each with the fixed
auto-capture context and tags. -/
theorem retention_policy (ev : AgentEndEvent)
    (outcomes : Nat → Except String RetainResponse)
    (hok : ∀ i, (outcomes i).isOk = true) :
    (agentEndBlocked ev = true → (autoRetainHook ev outcomes).calls = [])
    ∧ (agentEndBlocked ev = false →
        (autoRetainHook ev outcomes).calls
          = ((extractCandidates (ev.messages.getD [])).take 5).map mkAutoCall)
    ∧ (∀ role c, role ≠ some "user" → candidateOfMessage (.node role c) = [])
    ∧ (∀ s ∈ extractCandidates (ev.messages.getD []), 10 < s.length)
    ∧ (autoRetainHook ev outcomes).calls.length ≤ 5 := by
  have hcalls : ∀ _ : agentEndBlocked ev = false,
      (autoRetainHook ev outcomes).calls
        = ((extractCandidates (ev.messages.getD [])).take 5).map mkAutoCall := by
    intro hb
    simp [autoRetainHook, hb, runRetainLoop_of_ok outcomes hok]
  refine ⟨?_, hcalls, ?_, ?_, ?_⟩
  · intro hb
    simp [autoRetainHook, hb]
  · intro role c hrole
    rw [candidateOfMessage, if_neg hrole]
  · intro s hs
    exact mem_extractCandidates_length hs
  · cases hb : agentEndBlocked ev with
    | true => simp [autoRetainHook, hb]
    | false =>
      rw [hcalls hb, List.length_map, List.length_take]
      exact Nat.min_le_left _ _

/-- Witness for C2 at a concrete successful turn with a padded user
message, an assistant message, a short user message, a block message and a
non-object entry. -/
theorem retention_policy_witness :
    agentEndBlocked ⟨true, some [
      Message.node (some "user") (.str "  please remember my birthday  "),
      Message.node (some "assistant") (.str "assistant reply that is long"),
      Message.node (some "user") (.str "ok"),
      Message.node (some "user") (.blocks [⟨some "text", some "block text to retain!"⟩,
        ⟨some "image", some "not this one, wrong type"⟩]),
      Message.invalid]⟩ = false
    ∧ (autoRetainHook ⟨true, some [
        Message.node (some "user") (.str "  please remember my birthday  "),
        Message.node (some "assistant") (.str "assistant reply that is long"),
        Message.node (some "user") (.str "ok"),
        Message.node (some "user") (.blocks [⟨some "text", some "block text to retain!"⟩,
          ⟨some "image", some "not this one, wrong type"⟩]),
        Message.invalid]⟩ (fun _ => .ok ⟨true, 1, none⟩)).calls
      = [mkAutoCall "please remember my birthday", mkAutoCall "block text to retain!"]
    ∧ (autoRetainHook ⟨false, some [
        Message.node (some "user") (.str "  please remember my birthday  ")]⟩
        (fun _ => .ok ⟨true, 1, none⟩)).calls = [] := by
  have h := retention_policy ⟨true, some [
    Message.node (some "user") (.str "  please remember my birthday  "),
    Message.node (some "assistant") (.str "assistant reply that is long"),
    Message.node (some "user") (.str "ok"),
    Message.node (some "user") (.blocks [⟨some "text", some "block text to retain!"⟩,
      ⟨some "image", some "not this one, wrong type"⟩]),
    Message.invalid]⟩ (fun _ => .ok ⟨true, 1, none⟩) (fun _ => rfl)
  have h2 := retention_policy ⟨false, some [
    Message.node (some "user") (.str "  please remember my birthday  ")]⟩
    (fun _ => .ok ⟨true, 1, none⟩) (fun _ => rfl)
  refine ⟨by decide, ?_, h2.1 (by decide)⟩
  rw [h.2.1 (by decide)]
  decide

/-- C3: the auto-recall hook is a no-op when the prompt is absent or
shorter than 10 characters; otherwise it issues one recall with
maxTokens 1500; zero results inject nothing; otherwise the first 5 results
are rendered as bullet lines inside the delimiting block and returned as
the prependContext instruction. -/
theorem recall_policy_hook (ev : BeforeAgentStartEvent)
    (outcome : Except String RecallResponse) :
    (promptBlocked ev.prompt = true → autoRecallHook ev outcome = ⟨none, none, []⟩)
    ∧ (ev.prompt = none → promptBlocked ev.prompt = true)
    ∧ (∀ p, ev.prompt = some p → p.length < 10 → promptBlocked ev.prompt = true)
    ∧ (∀ p, ev.prompt = some p → 10 ≤ p.length →
        (autoRecallHook ev outcome).issued = some (p, 1500))
    ∧ (∀ resp, outcome = .ok resp → resp.results = [] →
        (autoRecallHook ev outcome).prependContext = none)
    ∧ (∀ resp, outcome = .ok resp → resp.results ≠ [] →
        promptBlocked ev.prompt = false →
        (autoRecallHook ev outcome).prependContext = some (memoriesBlock resp.results))
    ∧ (∀ results, memoriesBlock results
        = "<relevant-memories>\nThe following memories may be relevant:\n" ++
            String.intercalate "\n" ((results.take 5).map (fun r => "- " ++ r.content)) ++
            "\n</relevant-memories>") := by
  obtain ⟨pr⟩ := ev
  refine ⟨?_, ?_, ?_, ?_, ?_, ?_, fun _ => rfl⟩
  · intro hb
    simp [autoRecallHook, hb]
  · intro hp
    rw [hp]
    rfl
  · intro p hp hlen
    rw [hp]
    simp [promptBlocked, hlen]
  · intro p hp hlen
    simp only at hp
    subst hp
    have hb := promptBlocked_of_long hlen
    cases outcome with
    | error msg => simp [autoRecallHook, hb]
    | ok resp =>
      cases hre : resp.results.isEmpty <;> simp [autoRecallHook, hb, hre]
  · intro resp ho hres
    subst ho
    cases hb : promptBlocked pr with
    | true => simp [autoRecallHook, hb]
    | false =>
      have hre : resp.results.isEmpty = true := by rw [hres]; rfl
      simp [autoRecallHook, hb, hre]
  · intro resp ho hres hb
    subst ho
    have hre : resp.results.isEmpty = false := by
      cases hr : resp.results with
      | nil => exact absurd hr hres
      | cons a l => rfl
    simp [autoRecallHook, hb, hre]

/-- Witness for C3: end-to-end scenario 4 (prompt of length 5 issues no
recall) and a concrete injection of one memory. -/
theorem recall_policy_hook_witness :
    autoRecallHook ⟨some "hello"⟩
        (.ok ⟨[⟨"m1", "User prefers dark mode", 9/10, none⟩]⟩)
      = ⟨none, none, []⟩
    ∧ (autoRecallHook ⟨some "what was my dark mode preference"⟩
        (.ok ⟨[⟨"m1", "User prefers dark mode", 9/10, none⟩]⟩)).prependContext
      = some "<relevant-memories>\nThe following memories may be relevant:\n- User prefers dark mode\n</relevant-memories>"
    ∧ (autoRecallHook ⟨some "what was my dark mode preference"⟩
        (.ok ⟨[]⟩)).prependContext = none := by
  have h1 := recall_policy_hook ⟨some "hello"⟩
    (.ok ⟨[⟨"m1", "User prefers dark mode", 9/10, none⟩]⟩)
  have h2 := recall_policy_hook ⟨some "what was my dark mode preference"⟩
    (.ok ⟨[⟨"m1", "User prefers dark mode", 9/10, none⟩]⟩)
  have h3 := recall_policy_hook ⟨some "what was my dark mode preference"⟩
    (.ok (⟨[]⟩ : RecallResponse))
  refine ⟨h1.1 (by decide), ?_, h3.2.2.2.2.1 ⟨[]⟩ rfl rfl⟩
  have hx := h2.2.2.2.2.2.1 ⟨[⟨"m1", "User prefers dark mode", 9/10, none⟩]⟩
    rfl (by decide) (by decide)
  rw [hx]
  decide

/-- C4: the recall tool reports "No relevant memories found." with count 0
on zero results, and otherwise renders each result in order as
`"i. content (relevance: p%)"` with `p = round(score * 100)`; score 0.873
renders 87. -/
theorem recall_tool_rendering (l : List RecallResult) (i : Nat) (r : RecallResult)
    (hne : l ≠ []) :
    recallExecute (.ok ⟨[]⟩)
      = { text := "No relevant memories found.", details := .noResults }
    ∧ (recallExecute (.ok ⟨[]⟩)).details.countField = some 0
    ∧ renderRecallEntry i r
        = toString (i + 1) ++ ". " ++ r.content ++ " (relevance: "
            ++ toString (round (r.score * 100)) ++ "%)"
    ∧ jsToFixed0 ((873/1000 : ℚ) * 100) = 87
    ∧ (recallExecute (.ok ⟨l⟩)).text
        = "Found " ++ toString l.length ++ " memories:\n\n"
            ++ String.intercalate "\n\n" (renderEntriesFrom 0 l)
    ∧ (recallExecute (.ok ⟨l⟩)).details
        = .found l.length (l.map (fun x => ⟨x.memory_id, x.content, x.score⟩))
    ∧ (recallExecute (.ok ⟨l⟩)).details.countField = some l.length := by
  have hre : l.isEmpty = false := by
    cases hr : l with
    | nil => exact absurd hr hne
    | cons a t => rfl
  refine ⟨rfl, rfl, ?_, ?_, ?_, ?_, ?_⟩
  · simp only [renderRecallEntry, jsToFixed0_eq_round]
  · rw [jsToFixed0_eq_floor]
    norm_num
  · simp [recallExecute, hre]
  · simp [recallExecute, hre]
  · simp [recallExecute, hre, RecallDetails.countField]

/-- Witness for C4: end-to-end scenario 2 — two results with scores 0.9 and
0.6 render exactly as 90% and 60% — plus the 0.873 rounding and the empty
case. -/
theorem recall_tool_rendering_witness :
    (recallExecute (.ok ⟨[⟨"m1", "User prefers dark mode", 9/10, none⟩,
        ⟨"m2", "User dislikes light mode", 6/10, none⟩]⟩)).text
      = "Found 2 memories:\n\n1. User prefers dark mode (relevance: 90%)\n\n2. User dislikes light mode (relevance: 60%)"
    ∧ jsToFixed0 ((873/1000 : ℚ) * 100) = 87
    ∧ recallExecute (.ok ⟨[]⟩)
      = { text := "No relevant memories found.", details := .noResults } := by
  have h := recall_tool_rendering [⟨"m1", "User prefers dark mode", 9/10, none⟩,
    ⟨"m2", "User dislikes light mode", 6/10, none⟩] 0
    ⟨"m1", "User prefers dark mode", 9/10, none⟩ (by decide)
  refine ⟨?_, h.2.2.2.1, h.1⟩
  rw [h.2.2.2.2.1]
  have h90 : jsToFixed0 ((9/10 : ℚ) * 100) = 90 := by
    rw [jsToFixed0_eq_floor]
    norm_num
  have h60 : jsToFixed0 ((6/10 : ℚ) * 100) = 60 := by
    rw [jsToFixed0_eq_floor]
    norm_num
  have e1 : renderRecallEntry 0 ⟨"m1", "User prefers dark mode", 9/10, none⟩
      = "1. User prefers dark mode (relevance: 90%)" := by
    simp only [renderRecallEntry]
    rw [h90]
    decide
  have e2 : renderRecallEntry 1 ⟨"m2", "User dislikes light mode", 6/10, none⟩
      = "2. User dislikes light mode (relevance: 60%)" := by
    simp only [renderRecallEntry]
    rw [h60]
    decide
  simp only [renderEntriesFrom, e1, e2]
  decide

end Hindsight
